import Mathlib

/-!
Verification of the trust and memory-lifecycle engine of the server repository.

Python source files are shallowly embedded: pure numeric code is translated to
functions over `ℝ` (float formulas involving `math.sqrt`) or `ℚ` (exact score
arithmetic), stateful endpoints become explicit state-passing functions, and
fallible paths return `Except`/`Option`.
-/

namespace Server

/-- Wilson score lower bound, from `app/services/trust.py`
(`wilson_score_lower_bound`).  Python floats are modelled as real numbers;
`z = 1.9600` as in the source. -/
noncomputable def wilson_score_lower_bound (upvotes total_votes : ℕ) : ℝ :=
  if total_votes = 0 then 0.0
  else
    let z : ℝ := 1.9600
    let z2 : ℝ := z * z
    let p_hat : ℝ := (upvotes : ℝ) / (total_votes : ℝ)
    let n : ℝ := (total_votes : ℝ)
    let numerator : ℝ :=
      p_hat + z2 / (2 * n) - z * Real.sqrt ((p_hat * (1 - p_hat) + z2 / (4 * n)) / n)
    numerator / (1 + z2 / n)

/-- Closed form of the Wilson lower bound in terms of the upvote ratio `p`
and `t = z^2 / n`; used to factor the analytic arguments. -/
noncomputable def wilson_aux (p t : ℝ) : ℝ :=
  (p + t / 2 - Real.sqrt (p * (1 - p) * t + t ^ 2 / 4)) / (1 + t)

/-- Trace status enum from `app/models/trace.py` (`TraceStatus`). -/
inductive TraceStatus
  | pending
  | validated
deriving DecidableEq, Repr

/-- The trust-relevant mutable columns of a trace row
(`app/models/trace.py`), with the float `trust_score` modelled as `ℚ`. -/
structure TraceTrust where
  status : TraceStatus
  confirmation_count : ℕ
  trust_score : ℚ
deriving DecidableEq, Repr

/-- Vote application and promotion from `app/services/trust.py`
(`apply_vote_to_trace`): one atomic delta update followed by the re-read
promotion check against `settings.validation_threshold`. -/
def apply_vote_to_trace (validation_threshold : ℕ) (tr : TraceTrust)
    (vote_weight : ℚ) (is_upvote : Bool) : TraceTrust :=
  let score_delta : ℚ := if is_upvote then vote_weight else -vote_weight
  let updated : TraceTrust :=
    { tr with
      confirmation_count := tr.confirmation_count + 1
      trust_score := tr.trust_score + score_delta }
  if updated.status = TraceStatus.pending
      ∧ validation_threshold ≤ updated.confirmation_count
      ∧ 0 < updated.trust_score then
    { updated with status := TraceStatus.validated }
  else
    updated

/-- Name of the (trace, voter) uniqueness constraint, from
`app/models/vote.py` and `app/routers/votes.py`. -/
def uq_votes_trace_id_voter_id : String := "uq_votes_trace_id_voter_id"

/-- Python `in` on strings: `str_contains hay needle` is substring
containment, used to model `constraint_name in str(exc.orig)`. -/
def str_contains (hay needle : String) : Bool :=
  (List.range (hay.length + 1)).any fun i =>
    decide ((hay.toList.drop i).take needle.length = needle.toList)

/-- State visible to the vote endpoint: the set of committed `(trace, voter)`
vote rows and the voted trace's trust columns. -/
structure VotesState where
  votes : List (ℕ × ℕ)
  trace : TraceTrust
deriving DecidableEq, Repr

/-- The `db.flush()` of the new vote row in `cast_vote`
(`app/routers/votes.py`): the DB raises an `IntegrityError` whose message
carries the constraint name when the `(trace, voter)` pair already exists;
`fault` injects any other storage failure. -/
def flush_vote (st : VotesState) (trace_id voter_id : ℕ) (fault : Option String) :
    Except String VotesState :=
  if (trace_id, voter_id) ∈ st.votes then
    Except.error ("duplicate key value violates unique constraint "
      ++ uq_votes_trace_id_voter_id)
  else
    match fault with
    | some msg => Except.error msg
    | none => Except.ok { st with votes := (trace_id, voter_id) :: st.votes }

/-- Outcome of the vote endpoint: 201 created (committed state), 409 conflict
(rolled-back state), or a re-raised storage error (rolled-back state). -/
inductive CastVoteOutcome
  | created (st : VotesState)
  | conflict409 (st : VotesState)
  | raised (msg : String) (st : VotesState)
deriving DecidableEq, Repr

/-- Vote endpoint `cast_vote` from `app/routers/votes.py`: insert the vote row
first; on an `IntegrityError` roll back and translate to 409 only when the
message names the duplicate-vote constraint, otherwise re-raise; on success
apply the trust delta and commit. -/
def cast_vote (validation_threshold : ℕ) (st : VotesState) (trace_id voter_id : ℕ)
    (vote_weight : ℚ) (is_upvote : Bool) (fault : Option String) : CastVoteOutcome :=
  match flush_vote st trace_id voter_id fault with
  | Except.error msg =>
      if str_contains msg uq_votes_trace_id_voter_id then
        CastVoteOutcome.conflict409 st
      else
        CastVoteOutcome.raised msg st
  | Except.ok st1 =>
      let tr := apply_vote_to_trace validation_threshold st1.trace vote_weight is_upvote
      CastVoteOutcome.created { st1 with trace := tr }

/-- Persisted token-bucket state, the Redis hash holding `tokens` and
`last_refill` (`app/middleware/rate_limiter.py`); floats and timestamps are
modelled as `ℚ`. -/
structure Bucket where
  tokens : ℚ
  last_refill : ℚ
deriving DecidableEq, Repr

/-- The Lua script `RATE_LIMIT_LUA` of `app/middleware/rate_limiter.py`,
executed atomically per call: load state (defaulting to a full bucket),
refill by elapsed time capped at capacity, then try to consume one token;
the updated state is persisted in both branches. -/
def rate_limit_lua (max_tokens : ℕ) (refill_rate : ℚ) (now : ℚ)
    (state : Option Bucket) : Bool × Bucket :=
  let tokens : ℚ := match state with
    | none => (max_tokens : ℚ)
    | some b => b.tokens
  let last_refill : ℚ := match state with
    | none => now
    | some b => b.last_refill
  let elapsed := now - last_refill
  let refilled := tokens + elapsed * refill_rate
  let new_tokens := if refilled > (max_tokens : ℚ) then (max_tokens : ℚ) else refilled
  if new_tokens ≥ 1 then
    (true, ⟨new_tokens - 1, now⟩)
  else
    (false, ⟨new_tokens, now⟩)

/-- The two rate-limit capacity settings of `app/config.py`. -/
structure RateSettings where
  rate_limit_read_per_minute : ℕ
  rate_limit_write_per_minute : ℕ
deriving DecidableEq, Repr

/-- Capacity selection in `check_rate_limit`: the "read" bucket type uses the
read capacity, anything else the write capacity. -/
def max_tokens_for (s : RateSettings) (bucket_type : String) : ℕ :=
  if bucket_type = "read" then s.rate_limit_read_per_minute
  else s.rate_limit_write_per_minute

/-- The Redis keyspace of buckets, keyed by `(user_id, bucket_type)` as in the
`rl:{user_id}:{bucket_type}` key format. -/
abbrev RedisStore := (ℕ × String) → Option Bucket

/-- `check_rate_limit` from `app/middleware/rate_limiter.py`: run the Lua
script with `refill_rate = max_tokens / 60`; `none` means the request is
allowed, `some 60` is the fixed `Retry-After` hint of the HTTP 429. -/
def check_rate_limit (s : RateSettings) (user_id : ℕ) (redis : RedisStore)
    (bucket_type : String) (now : ℚ) : Option ℕ × RedisStore :=
  let key := (user_id, bucket_type)
  let max_tokens := max_tokens_for s bucket_type
  let refill_rate : ℚ := (max_tokens : ℚ) / 60
  let result := rate_limit_lua max_tokens refill_rate now (redis key)
  let redis1 : RedisStore := fun k => if k = key then some result.2 else redis k
  if result.1 then (none, redis1) else (some 60, redis1)

/-- Iterated immediate requests by one subject: `true` iff every one of the
`k` consecutive calls was allowed. -/
def consume_requests (s : RateSettings) (user_id : ℕ) (bucket_type : String)
    (now : ℚ) : ℕ → RedisStore → Bool × RedisStore
  | 0, redis => (true, redis)
  | k + 1, redis =>
      let r := check_rate_limit s user_id redis bucket_type now
      let rest := consume_requests s user_id bucket_type now k r.2
      (decide (r.1 = none) && rest.1, rest.2)

/-- Modelled from the spec: the maturity tier enum of
`app/services/maturity.py` (the module is not under src/; only its callers
are).  The spec classifies the corpus into seed / growing / mature tiers. -/
inductive MaturityTier
  | seed
  | growing
  | mature
deriving DecidableEq, Repr

/-- String value of a tier as stored in the run stats under
`"maturity_tier"`. -/
def tier_value : MaturityTier → String
  | MaturityTier.seed => "seed"
  | MaturityTier.growing => "growing"
  | MaturityTier.mature => "mature"

/-- A value of the consolidation run's stats map: job counters, strings
(the tier name or the `"error"` marker), or a nested distribution table. -/
inductive StatVal
  | num (n : ℤ)
  | str (s : String)
  | table (d : List (String × ℤ))
deriving DecidableEq, Repr

/-- What a job returns into `stats` in `run_consolidation_cycle`: a dict is
merged via `stats.update(result)`, anything else is stored under the job
name. -/
inductive JobResult
  | count (n : ℤ)
  | merged (d : List (String × StatVal))
deriving DecidableEq, Repr

/-- One consolidation job: a session-state transformer that may raise. -/
abbrev Job (σ : Type) := σ → Except String (σ × JobResult)

/-- Audit record of one consolidation cycle (`ConsolidationRun` model used by
`app/worker/consolidation_worker.py`). -/
structure ConsolidationRun where
  status : String
  completed_at : Option ℚ
  stats : List (String × StatVal)
deriving DecidableEq, Repr

/-- Python dict assignment `stats[k] = v` on an insertion-ordered
association list. -/
def set_stat (stats : List (String × StatVal)) (k : String) (v : StatVal) :
    List (String × StatVal) :=
  if (stats.map Prod.fst).contains k then
    stats.map (fun p => if p.1 = k then (k, v) else p)
  else
    stats ++ [(k, v)]

/-- Python dict lookup `stats.get(k)`. -/
def get_stat (stats : List (String × StatVal)) (k : String) : Option StatVal :=
  (stats.find? (fun p => p.1 == k)).map Prod.snd

/-- Recording one job's result: dict results merge, scalar results are stored
under the job name (`run_consolidation_cycle`). -/
def record_result (stats : List (String × StatVal)) (job_name : String) :
    JobResult → List (String × StatVal)
  | JobResult.count n => set_stat stats job_name (StatVal.num n)
  | JobResult.merged d => d.foldl (fun acc p => set_stat acc p.1 p.2) stats

/-- The per-job try/except fold of `run_consolidation_cycle`: each job runs
on the state left by its predecessors; an exception is caught, recorded as
`"error"` under the job's name, and the name appended to the error list. -/
def run_jobs {σ : Type} : List (String × Job σ) → σ → List (String × StatVal) →
    List String → σ × List (String × StatVal) × List String
  | [], st, stats, errors => (st, stats, errors)
  | (name, job) :: rest, st, stats, errors =>
      match job st with
      | Except.ok (st1, res) =>
          run_jobs rest st1 (record_result stats name res) errors
      | Except.error _ =>
          run_jobs rest st (set_stat stats name (StatVal.str "error"))
            (errors ++ [name])

/-- The job list built in `run_consolidation_cycle`: five unconditional jobs,
then convergence detection and narrative synthesis appended only when the
tier is GROWING or MATURE. -/
def cycle_jobs {σ : Type} (tier : MaturityTier)
    (decay temp corel prune prosp conv synth : Job σ) : List (String × Job σ) :=
  [("trust_downscaled", decay),
   ("temperature_computation", temp),
   ("co_retrieval_links", corel),
   ("logs_pruned", prune),
   ("prospective_staled", prosp)]
  ++ (if tier = MaturityTier.growing ∨ tier = MaturityTier.mature then
        [("convergence_detected", conv), ("patterns_synthesized", synth)]
      else [])

/-- The idempotency-guard query of `run_consolidation_cycle`: completed runs
whose `completed_at` is after the cutoff. -/
def recent_completed (runs : List ConsolidationRun) (cutoff : ℚ) :
    List ConsolidationRun :=
  runs.filter (fun r =>
    (match r.completed_at with
     | some ts => decide (cutoff < ts)
     | none => false)
    && (r.status == "completed"))

/-- Result of one cycle: the guard skipped it (no run record, no job work), or
it ran and finalized a new run record. -/
inductive CycleOutcome (σ : Type)
  | skipped
  | ran (newRun : ConsolidationRun) (st : σ)
deriving DecidableEq, Repr

/-- `run_consolidation_cycle` from `app/worker/consolidation_worker.py`:
evaluate the idempotency guard with `scalar_one_or_none` — which raises
`MultipleResultsFound` when more than one recent completed run matches — then
run every job fault-isolated and finalize the run record as `"completed"`
or `"partial"`. -/
def run_consolidation_cycle {σ : Type} (tier : MaturityTier)
    (decay temp corel prune prosp conv synth : Job σ)
    (runs : List ConsolidationRun) (now interval : ℚ) (st : σ) :
    Except String (CycleOutcome σ) :=
  let cutoff := now - interval
  match recent_completed runs cutoff with
  | [] =>
      let stats0 : List (String × StatVal) :=
        [("maturity_tier", StatVal.str (tier_value tier))]
      let jobs := cycle_jobs tier decay temp corel prune prosp conv synth
      let result := run_jobs jobs st stats0 []
      let status := if result.2.2.isEmpty then "completed" else "partial"
      Except.ok (CycleOutcome.ran ⟨status, some now, result.2.1⟩ result.1)
  | [_] => Except.ok CycleOutcome.skipped
  | _ :: _ :: _ => Except.error "MultipleResultsFound"

/-- A job that does nothing, used for concrete cycle scenarios. -/
def zero_job : Job ℕ := fun n => Except.ok (n, JobResult.count 0)

/-- A job standing for the synthesis orchestration: it bumps an invocation
counter, standing for a call to the external synthesis collaborator that
materializes a pattern trace. -/
def count_synth : Job ℕ := fun n => Except.ok (n + 1, JobResult.count 1)

/-- A job that advances the session state by one, standing for a job that
does its work successfully. -/
def tick_job : Job ℕ := fun n => Except.ok (n + 1, JobResult.count 0)

/-- A decay job returning a row count of 5. -/
def decay_five : Job ℕ := fun n => Except.ok (n + 1, JobResult.count 5)

/-- A job that raises. -/
def boom_job : Job ℕ := fun _ => Except.error "boom"

/-- Floor weight for contributors with no track record, from
`app/services/trust.py` (`BASE_WEIGHT = 0.1`). -/
def BASE_WEIGHT : ℚ := 0.1

/-- `get_vote_weight_for_trace` from `app/services/trust.py`, with the DB
reads made explicit: `reputation_score` is the voter's `users.reputation_score`
row (`none` when no row matches), and `domain_rows` are the voter's
`(domain_tag, wilson_score)` reputation rows.  The Python
`result or BASE_WEIGHT` treats `None` and `0.0` as falsy. -/
def get_vote_weight_for_trace (reputation_score : Option ℚ)
    (domain_rows : List (String × ℚ)) (trace_tags : List String) : ℚ :=
  if trace_tags.isEmpty then
    let overall : ℚ := match reputation_score with
      | none => BASE_WEIGHT
      | some s => if s = 0 then BASE_WEIGHT else s
    max BASE_WEIGHT overall
  else
    let domain_scores := (domain_rows.filter
      (fun p => trace_tags.contains p.1)).map Prod.snd
    match domain_scores with
    | [] => BASE_WEIGHT
    | x :: xs => max BASE_WEIGHT (xs.foldl max x)

/-- Trace columns touched by the embedding worker
(`app/worker/embedding_worker.py`); text content is irrelevant to the claim
and the embedding call is keyed by trace id. -/
structure EmbTrace where
  id : ℕ
  embedding : Option (List ℚ)
  embedding_model_id : Option String
  embedding_model_version : Option String
deriving DecidableEq, Repr

/-- Outcome of `EmbeddingService.embed` for one trace
(`app/services/embedding.py`): a vector with model identity and version, the
configuration-absence signal `EmbeddingSkippedError`, or a per-item failure. -/
inductive EmbedOutcome
  | success (vector : List ℚ) (model_id : String) (model_version : String)
  | skipped
  | failed (msg : String)
deriving DecidableEq, Repr

/-- `BATCH_SIZE` from `app/worker/embedding_worker.py`. -/
def BATCH_SIZE : ℕ := 10

/-- The SKIP LOCKED claim query of `process_batch`: up to `BATCH_SIZE` traces
lacking an embedding. -/
def claim_batch (db : List EmbTrace) : List EmbTrace :=
  (db.filter (fun tr => tr.embedding.isNone)).take BATCH_SIZE

/-- The per-trace loop of `process_batch`: a skipped signal aborts the whole
batch (`return 0` with nothing committed), a per-item failure continues, a
success stages the update and counts the trace as processed. -/
def embed_loop (svc : ℕ → EmbedOutcome) :
    List EmbTrace → List (ℕ × List ℚ × String × String) → ℕ →
    Option (ℕ × List (ℕ × List ℚ × String × String))
  | [], staged, processed => some (processed, staged)
  | tr :: rest, staged, processed =>
      match svc tr.id with
      | EmbedOutcome.skipped => none
      | EmbedOutcome.failed _ => embed_loop svc rest staged processed
      | EmbedOutcome.success v mid mver =>
          embed_loop svc rest (staged ++ [(tr.id, v, mid, mver)]) (processed + 1)

/-- Applying one staged embedding UPDATE to the database at commit time. -/
def apply_update (db : List EmbTrace) (u : ℕ × List ℚ × String × String) :
    List EmbTrace :=
  db.map (fun tr => if tr.id = u.1 then
    ⟨tr.id, some u.2.1, some u.2.2.1, some u.2.2.2⟩ else tr)

/-- `process_batch` from `app/worker/embedding_worker.py`: claim a batch,
embed each trace, and commit the staged updates only when the loop finishes;
an abort leaves the database unchanged (the uncommitted transaction is rolled
back when the session closes). -/
def process_batch (svc : ℕ → EmbedOutcome) (db : List EmbTrace) :
    ℕ × List EmbTrace :=
  let traces := claim_batch db
  if traces.isEmpty then (0, db)
  else
    match embed_loop svc traces [] 0 with
    | none => (0, db)
    | some (processed, staged) => (processed, staged.foldl apply_update db)

lemma le_of_sq_le_sq_of_nonneg {a b : ℝ} (ha : 0 ≤ a) (hb : 0 ≤ b)
    (h : a ^ 2 ≤ b ^ 2) : a ≤ b := by
  have h2 := Real.sqrt_le_sqrt h
  rwa [Real.sqrt_sq ha, Real.sqrt_sq hb] at h2

lemma sqrt_le_of_sq_le {a b : ℝ} (hb : 0 ≤ b) (h : a ≤ b ^ 2) :
    Real.sqrt a ≤ b := by
  calc Real.sqrt a ≤ Real.sqrt (b ^ 2) := Real.sqrt_le_sqrt h
  _ = b := Real.sqrt_sq hb

lemma wilson_eq_aux (u n : ℕ) (hn : 0 < n) :
    wilson_score_lower_bound u n =
      wilson_aux ((u : ℝ) / (n : ℝ)) ((1.9600 : ℝ) * 1.9600 / (n : ℝ)) := by
  have hn0 : (n : ℝ) ≠ 0 := Nat.cast_ne_zero.mpr hn.ne'
  rw [wilson_score_lower_bound, if_neg hn.ne', wilson_aux]
  dsimp only
  have harg : ((u : ℝ) / n) * (1 - (u : ℝ) / n) * ((1.9600 : ℝ) * 1.9600 / n)
      + ((1.9600 : ℝ) * 1.9600 / n) ^ 2 / 4
      = ((1.9600 : ℝ) * 1.9600) *
        ((((u : ℝ) / n) * (1 - (u : ℝ) / n) + (1.9600 : ℝ) * 1.9600 / (4 * n)) / n) := by
    field_simp
    ring
  rw [harg, Real.sqrt_mul (by norm_num) _,
    Real.sqrt_mul_self (by norm_num : (0 : ℝ) ≤ 1.9600)]
  ring

lemma wilson_aux_num_nonneg (p t : ℝ) (hp0 : 0 ≤ p) (hp1 : p ≤ 1) (ht : 0 < t) :
    Real.sqrt (p * (1 - p) * t + t ^ 2 / 4) ≤ p + t / 2 := by
  apply sqrt_le_of_sq_le (by linarith)
  nlinarith [sq_nonneg p, mul_nonneg (mul_nonneg hp0 (by linarith : (0:ℝ) ≤ 1 - p)) ht.le]

lemma wilson_aux_nonneg (p t : ℝ) (hp0 : 0 ≤ p) (hp1 : p ≤ 1) (ht : 0 < t) :
    0 ≤ wilson_aux p t := by
  have h := wilson_aux_num_nonneg p t hp0 hp1 ht
  have h1t : (0 : ℝ) < 1 + t := by linarith
  exact div_nonneg (by linarith) h1t.le

lemma wilson_aux_le_p (p t : ℝ) (hp0 : 0 ≤ p) (hp1 : p ≤ 1) (ht : 0 < t) :
    wilson_aux p t ≤ p := by
  have h1t : (0 : ℝ) < 1 + t := by linarith
  have hS2 : (Real.sqrt (p * (1 - p) * t + t ^ 2 / 4)) ^ 2
      = p * (1 - p) * t + t ^ 2 / 4 :=
    Real.sq_sqrt (by nlinarith [mul_nonneg (mul_nonneg hp0 (by linarith : (0:ℝ) ≤ 1 - p)) ht.le])
  have hSnn : 0 ≤ Real.sqrt (p * (1 - p) * t + t ^ 2 / 4) := Real.sqrt_nonneg _
  have hkey : t * (1 / 2 - p) ≤ Real.sqrt (p * (1 - p) * t + t ^ 2 / 4) := by
    rcases le_or_lt p (1 / 2) with hp | hp
    · apply le_of_sq_le_sq_of_nonneg (by nlinarith) hSnn
      rw [hS2]
      nlinarith [mul_nonneg (mul_nonneg (mul_nonneg hp0 (by linarith : (0:ℝ) ≤ 1 - p)) ht.le)
        (by linarith : (0:ℝ) ≤ 1 + t)]
    · have : t * (1 / 2 - p) < 0 := by nlinarith
      linarith
  rw [wilson_aux, div_le_iff₀ h1t]
  nlinarith

lemma wilson_aux_quadratic (p t : ℝ) (hp0 : 0 ≤ p) (hp1 : p ≤ 1) (ht : 0 < t) :
    (p - wilson_aux p t) ^ 2 = t * (wilson_aux p t * (1 - wilson_aux p t)) := by
  have h1t : (1 : ℝ) + t ≠ 0 := by positivity
  have hS2 : (Real.sqrt (p * (1 - p) * t + t ^ 2 / 4)) ^ 2
      = p * (1 - p) * t + t ^ 2 / 4 :=
    Real.sq_sqrt (by nlinarith [mul_nonneg (mul_nonneg hp0 (by linarith : (0:ℝ) ≤ 1 - p)) ht.le])
  have hw : (1 + t) * wilson_aux p t
      = p + t / 2 - Real.sqrt (p * (1 - p) * t + t ^ 2 / 4) := by
    rw [wilson_aux, mul_comm, div_mul_cancel₀ _ h1t]
  have hsub : (p + t / 2 - (1 + t) * wilson_aux p t) ^ 2
      = p * (1 - p) * t + t ^ 2 / 4 := by
    rw [show p + t / 2 - (1 + t) * wilson_aux p t
        = Real.sqrt (p * (1 - p) * t + t ^ 2 / 4) by linarith]
    exact hS2
  have hkey : (1 + t) * ((p - wilson_aux p t) ^ 2
      - t * (wilson_aux p t * (1 - wilson_aux p t))) = 0 := by
    linear_combination hsub
  have := mul_eq_zero.mp hkey
  rcases this with h | h
  · exact absurd h h1t
  · linarith

set_option maxHeartbeats 2000000 in
lemma wilson_aux_mono (p t t' : ℝ) (hp0 : 0 ≤ p) (hp1 : p ≤ 1)
    (ht' : 0 < t') (htt' : t' ≤ t) : wilson_aux p t ≤ wilson_aux p t' := by
  have ht : 0 < t := lt_of_lt_of_le ht' htt'
  have h1t : (0 : ℝ) < 1 + t := by linarith
  have h1t' : (0 : ℝ) < 1 + t' := by linarith
  set w : ℝ := wilson_aux p t with hwdef
  clear_value w
  have h0w : 0 ≤ w := by rw [hwdef]; exact wilson_aux_nonneg p t hp0 hp1 ht
  have hwp : w ≤ p := by rw [hwdef]; exact wilson_aux_le_p p t hp0 hp1 ht
  have hw1 : w ≤ 1 := le_trans hwp hp1
  have hQ : (p - w) ^ 2 = t * (w * (1 - w)) := by
    rw [hwdef]; exact wilson_aux_quadratic p t hp0 hp1 ht
  have hS2 : (Real.sqrt (p * (1 - p) * t + t ^ 2 / 4)) ^ 2
      = p * (1 - p) * t + t ^ 2 / 4 :=
    Real.sq_sqrt (by nlinarith [mul_nonneg (mul_nonneg hp0 (by linarith : (0:ℝ) ≤ 1 - p)) ht.le])
  have hSnn : 0 ≤ Real.sqrt (p * (1 - p) * t + t ^ 2 / 4) := Real.sqrt_nonneg _
  have hwS : (1 + t) * w = p + t / 2 - Real.sqrt (p * (1 - p) * t + t ^ 2 / 4) := by
    rw [hwdef, wilson_aux, mul_comm, div_mul_cancel₀ _ (by positivity : (1 : ℝ) + t ≠ 0)]
  have hS'2 : (Real.sqrt (p * (1 - p) * t' + t' ^ 2 / 4)) ^ 2
      = p * (1 - p) * t' + t' ^ 2 / 4 :=
    Real.sq_sqrt (by nlinarith [mul_nonneg (mul_nonneg hp0 (by linarith : (0:ℝ) ≤ 1 - p)) ht'.le])
  have hS'nn : 0 ≤ Real.sqrt (p * (1 - p) * t' + t' ^ 2 / 4) := Real.sqrt_nonneg _
  -- Step A: the candidate numerator bound is non-negative
  have hMid : (p + t' / 2 - (1 + t') * w) * (1 + t)
      = (t - t') * (p - 1 / 2)
        + Real.sqrt (p * (1 - p) * t + t ^ 2 / 4) * (1 + t') := by
    linear_combination (-(1 + t')) * hwS
  have hM : 0 ≤ p + t' / 2 - (1 + t') * w := by
    have hMt : 0 ≤ (p + t' / 2 - (1 + t') * w) * (1 + t) := by
      rcases le_or_lt (1 / 2) p with hp | hp
      · have ha : 0 ≤ (t - t') * (p - 1 / 2) :=
          mul_nonneg (by linarith) (by linarith)
        have hb : 0 ≤ Real.sqrt (p * (1 - p) * t + t ^ 2 / 4) * (1 + t') :=
          mul_nonneg hSnn (by linarith)
        rw [hMid]
        linarith
      · have ha : 0 ≤ (t - t') * (1 / 2 - p) :=
          mul_nonneg (by linarith) (by linarith)
        have hb : 0 ≤ Real.sqrt (p * (1 - p) * t + t ^ 2 / 4) * (1 + t') :=
          mul_nonneg hSnn (by linarith)
        have hcmp : ((t - t') * (1 / 2 - p)) ^ 2
            ≤ (Real.sqrt (p * (1 - p) * t + t ^ 2 / 4) * (1 + t')) ^ 2 := by
          have hsq : (t - t') ^ 2 ≤ t ^ 2 := by
            nlinarith [mul_nonneg ht'.le (by linarith : (0:ℝ) ≤ 2 * t - t')]
          have hmid : t ^ 2 * (1 / 2 - p) ^ 2 ≤ p * (1 - p) * t + t ^ 2 / 4 := by
            nlinarith [mul_nonneg (mul_nonneg (mul_nonneg hp0 (by linarith : (0:ℝ) ≤ 1 - p))
              ht.le) (by linarith : (0:ℝ) ≤ 1 + t)]
          have hstep : (t - t') ^ 2 * (1 / 2 - p) ^ 2 ≤ t ^ 2 * (1 / 2 - p) ^ 2 :=
            mul_le_mul_of_nonneg_right hsq (sq_nonneg _)
          have h2 : 0 ≤ p * (1 - p) * t + t ^ 2 / 4 := by
            nlinarith [mul_nonneg (mul_nonneg hp0 (by linarith : (0:ℝ) ≤ 1 - p)) ht.le]
          have hgrow : p * (1 - p) * t + t ^ 2 / 4
              ≤ (p * (1 - p) * t + t ^ 2 / 4) * (1 + t') ^ 2 := by
            nlinarith [mul_nonneg h2 (by nlinarith : (0:ℝ) ≤ (1 + t') ^ 2 - 1)]
          rw [mul_pow, mul_pow, hS2]
          linarith
        have hab := le_of_sq_le_sq_of_nonneg ha hb hcmp
        rw [hMid]
        linarith
    by_contra hneg
    push_neg at hneg
    have : (p + t' / 2 - (1 + t') * w) * (1 + t) < 0 := mul_neg_of_neg_of_pos hneg h1t
    linarith
  -- Step B: compare against the smaller square root
  have hid : (p + t' / 2 - (1 + t') * w) ^ 2
      - (Real.sqrt (p * (1 - p) * t' + t' ^ 2 / 4)) ^ 2
      = (w * (1 - w)) * ((t - t') * (1 + t')) := by
    linear_combination (1 + t') * hQ - hS'2
  have hBineq : (Real.sqrt (p * (1 - p) * t' + t' ^ 2 / 4)) ^ 2
      ≤ (p + t' / 2 - (1 + t') * w) ^ 2 := by
    have hint : 0 ≤ (w * (1 - w)) * ((t - t') * (1 + t')) :=
      mul_nonneg (mul_nonneg h0w (by linarith))
        (mul_nonneg (by linarith) (by linarith))
    linarith [hid]
  have hC := le_of_sq_le_sq_of_nonneg hS'nn hM hBineq
  rw [wilson_aux, le_div_iff₀ h1t']
  linarith

lemma wilson_aux_zero (t : ℝ) (ht : 0 ≤ t) : wilson_aux 0 t = 0 := by
  rw [wilson_aux]
  have h : (0 : ℝ) * (1 - 0) * t + t ^ 2 / 4 = (t / 2) ^ 2 := by ring
  rw [h, Real.sqrt_sq (by linarith)]
  ring

lemma wilson_aux_one (t : ℝ) (ht : 0 ≤ t) : wilson_aux 1 t = 1 / (1 + t) := by
  rw [wilson_aux]
  have h : (1 : ℝ) * (1 - 1) * t + t ^ 2 / 4 = (t / 2) ^ 2 := by ring
  rw [h, Real.sqrt_sq (by linarith)]
  ring

/-- C3: `wilson_score_lower_bound` returns exactly `0` when `total_votes = 0`
and when `upvotes = 0` with positive total, and for all `upvotes ≤ total_votes`
its value lies in the closed interval `[0, 1]` (in the real-number model of the
float formula it is always well defined). -/
theorem wilson_zero_cases_and_range :
    wilson_score_lower_bound 0 0 = 0
    ∧ (∀ n : ℕ, 0 < n → wilson_score_lower_bound 0 n = 0)
    ∧ (∀ u n : ℕ, u ≤ n →
        0 ≤ wilson_score_lower_bound u n ∧ wilson_score_lower_bound u n ≤ 1) := by
  have hzero : wilson_score_lower_bound 0 0 = 0 := by
    rw [wilson_score_lower_bound, if_pos rfl]
    norm_num
  refine ⟨hzero, ?_, ?_⟩
  · intro n hn
    have hnR : (0 : ℝ) < (n : ℝ) := Nat.cast_pos.mpr hn
    rw [wilson_eq_aux 0 n hn, Nat.cast_zero, zero_div]
    exact wilson_aux_zero _ (by positivity)
  · intro u n hun
    rcases Nat.eq_zero_or_pos n with hn | hn
    · subst hn
      interval_cases u
      rw [hzero]
      norm_num
    · have hnR : (0 : ℝ) < (n : ℝ) := Nat.cast_pos.mpr hn
      have hp0 : 0 ≤ (u : ℝ) / (n : ℝ) := by positivity
      have hp1 : (u : ℝ) / (n : ℝ) ≤ 1 := by
        rw [div_le_one hnR]
        exact_mod_cast hun
      have ht : (0 : ℝ) < (1.9600 : ℝ) * 1.9600 / (n : ℝ) :=
        div_pos (by norm_num) hnR
      rw [wilson_eq_aux u n hn]
      exact ⟨wilson_aux_nonneg _ _ hp0 hp1 ht,
        le_trans (wilson_aux_le_p _ _ hp0 hp1 ht) hp1⟩

/-- Witness for C3 at concrete inputs. -/
theorem wilson_zero_cases_and_range_witness :
    wilson_score_lower_bound 0 10 = 0
    ∧ (0 ≤ wilson_score_lower_bound 3 5 ∧ wilson_score_lower_bound 3 5 ≤ 1) :=
  ⟨wilson_zero_cases_and_range.2.1 10 (by norm_num),
    wilson_zero_cases_and_range.2.2 3 5 (by norm_num)⟩

/-- C4: at the fixed upvote ratio 10/11 the Wilson lower bound is
non-decreasing in the sample size, and `wilson(50,55)` is strictly larger
than `wilson(1,1)`. -/
theorem wilson_monotone_in_sample_size :
    (∀ k : ℕ, 0 < k →
      wilson_score_lower_bound (10 * k) (11 * k)
        ≤ wilson_score_lower_bound (10 * (k + 1)) (11 * (k + 1)))
    ∧ wilson_score_lower_bound 1 1 < wilson_score_lower_bound 50 55 := by
  constructor
  · intro k hk
    have hk1 : 0 < 11 * k := Nat.mul_pos (by norm_num) hk
    have hk2 : 0 < 11 * (k + 1) := Nat.mul_pos (by norm_num) (Nat.succ_pos k)
    have hkR : (0 : ℝ) < (k : ℝ) := Nat.cast_pos.mpr hk
    rw [wilson_eq_aux _ _ hk1, wilson_eq_aux _ _ hk2]
    have hp : ((10 * k : ℕ) : ℝ) / ((11 * k : ℕ) : ℝ) = 10 / 11 := by
      push_cast
      rw [div_eq_div_iff (by positivity) (by norm_num)]
      ring
    have hp' : ((10 * (k + 1) : ℕ) : ℝ) / ((11 * (k + 1) : ℕ) : ℝ) = 10 / 11 := by
      push_cast
      rw [div_eq_div_iff (by positivity) (by norm_num)]
      ring
    rw [hp, hp']
    apply wilson_aux_mono _ _ _ (by norm_num) (by norm_num)
    · apply div_pos (by norm_num)
      push_cast
      positivity
    · have h1 : ((11 * k : ℕ) : ℝ) ≤ ((11 * (k + 1) : ℕ) : ℝ) := by
        push_cast
        linarith
      have h2 : (0 : ℝ) < ((11 * k : ℕ) : ℝ) := by
        push_cast
        positivity
      exact div_le_div_of_nonneg_left (by norm_num) h2 h1
  · have h11 : wilson_score_lower_bound 1 1 = 1 / (1 + 1.9600 * 1.9600) := by
      rw [wilson_eq_aux 1 1 one_pos, Nat.cast_one, div_one, div_one, wilson_aux_one _ (by norm_num)]
    rw [h11, wilson_eq_aux 50 55 (by norm_num)]
    have hc50 : ((50 : ℕ) : ℝ) = 50 := by norm_num
    have hc55 : ((55 : ℕ) : ℝ) = 55 := by norm_num
    rw [hc50, hc55]
    have ht : (0 : ℝ) < 1 + 1.9600 * 1.9600 / 55 := by norm_num
    have hS : Real.sqrt ((50 : ℝ) / 55 * (1 - 50 / 55) * (1.9600 * 1.9600 / 55)
        + (1.9600 * 1.9600 / 55) ^ 2 / 4) ≤ 1 / 10 := by
      apply sqrt_le_of_sq_le (by norm_num)
      norm_num
    calc 1 / (1 + 1.9600 * 1.9600)
        < ((50 : ℝ) / 55 + (1.9600 * 1.9600 / 55) / 2 - 1 / 10)
            / (1 + 1.9600 * 1.9600 / 55) := by norm_num
      _ ≤ ((50 : ℝ) / 55 + (1.9600 * 1.9600 / 55) / 2
            - Real.sqrt ((50 : ℝ) / 55 * (1 - 50 / 55) * (1.9600 * 1.9600 / 55)
              + (1.9600 * 1.9600 / 55) ^ 2 / 4))
            / (1 + 1.9600 * 1.9600 / 55) := by
          apply div_le_div_of_nonneg_right ?_ ht.le
          linarith
      _ = wilson_aux ((50 : ℝ) / 55) (1.9600 * 1.9600 / 55) := by rw [wilson_aux]

/-- Witness for C4 at `k = 1`. -/
theorem wilson_monotone_in_sample_size_witness :
    wilson_score_lower_bound (10 * 1) (11 * 1)
      ≤ wilson_score_lower_bound (10 * (1 + 1)) (11 * (1 + 1)) :=
  wilson_monotone_in_sample_size.1 1 (by norm_num)

/-- C1: the vote delta always increments `confirmation_count` by one and moves
`trust_score` by the signed weight, and the resulting status is `validated`
exactly when the trace was already validated or the post-delta state satisfies
the promotion predicate; the two concrete scenarios of the spec
(threshold 2, weight 0.82 up and down) behave as stated. -/
theorem apply_vote_promotion_rule :
    (∀ (thr : ℕ) (tr : TraceTrust) (w : ℚ) (up : Bool),
      (apply_vote_to_trace thr tr w up).confirmation_count = tr.confirmation_count + 1
      ∧ (apply_vote_to_trace thr tr w up).trust_score
          = tr.trust_score + (if up then w else -w)
      ∧ ((apply_vote_to_trace thr tr w up).status = TraceStatus.validated ↔
          (tr.status = TraceStatus.validated
            ∨ (tr.status = TraceStatus.pending
              ∧ thr ≤ tr.confirmation_count + 1
              ∧ 0 < tr.trust_score + (if up then w else -w)))))
    ∧ apply_vote_to_trace 2 ⟨TraceStatus.pending, 1, 0⟩ (82/100) true
        = ⟨TraceStatus.validated, 2, 82/100⟩
    ∧ apply_vote_to_trace 2 ⟨TraceStatus.pending, 1, 0⟩ (82/100) false
        = ⟨TraceStatus.pending, 2, -(82/100)⟩ := by
  refine ⟨?_, ?_, ?_⟩
  · intro thr tr w up
    rw [apply_vote_to_trace]
    dsimp only
    set d : ℚ := (if up = true then w else -w) with hd
    split_ifs with h
    · refine ⟨rfl, rfl, ?_⟩
      constructor
      · intro _
        exact Or.inr h
      · intro _
        rfl
    · refine ⟨rfl, rfl, ?_⟩
      constructor
      · intro hv
        exact Or.inl hv
      · rintro (hv | hx)
        · exact hv
        · exact absurd hx h
  · rw [apply_vote_to_trace]
    rw [if_pos (by refine ⟨rfl, by norm_num, by norm_num⟩)]
    norm_num
  · rw [apply_vote_to_trace]
    rw [if_neg (by rintro ⟨-, -, hlt⟩; norm_num at hlt)]
    norm_num

lemma dup_msg_contains_constraint :
    str_contains ("duplicate key value violates unique constraint "
      ++ uq_votes_trace_id_voter_id) uq_votes_trace_id_voter_id = true := by
  decide

/-- C2: a repeated vote by the same voter on the same trace is rejected as a
409 domain conflict with the state rolled back; a fresh pair of casts leaves
the trace reflecting exactly one applied vote and the second cast conflicts;
any storage failure whose message does not name the duplicate-vote constraint
is surfaced unconverted. -/
theorem cast_vote_duplicate_conflict :
    (∀ (thr : ℕ) (st : VotesState) (t v : ℕ) (w : ℚ) (up : Bool) (fault : Option String),
        (t, v) ∈ st.votes →
        cast_vote thr st t v w up fault = CastVoteOutcome.conflict409 st)
    ∧ (∀ (thr : ℕ) (st : VotesState) (t v : ℕ) (w w' : ℚ) (up up' : Bool),
        (t, v) ∉ st.votes →
        ∃ st1 : VotesState,
          cast_vote thr st t v w up none = CastVoteOutcome.created st1
          ∧ st1.trace = apply_vote_to_trace thr st.trace w up
          ∧ cast_vote thr st1 t v w' up' none = CastVoteOutcome.conflict409 st1)
    ∧ (∀ (thr : ℕ) (st : VotesState) (t v : ℕ) (w : ℚ) (up : Bool) (msg : String),
        (t, v) ∉ st.votes →
        str_contains msg uq_votes_trace_id_voter_id = false →
        cast_vote thr st t v w up (some msg) = CastVoteOutcome.raised msg st) := by
  refine ⟨?_, ?_, ?_⟩
  · intro thr st t v w up fault hmem
    rw [cast_vote, flush_vote.eq_def, if_pos hmem]
    dsimp only
    rw [if_pos dup_msg_contains_constraint]
  · intro thr st t v w w' up up' hmem
    refine ⟨⟨(t, v) :: st.votes, apply_vote_to_trace thr st.trace w up⟩, ?_, rfl, ?_⟩
    · rw [cast_vote, flush_vote.eq_def, if_neg hmem]
    · rw [cast_vote, flush_vote.eq_def,
        if_pos (show (t, v) ∈ (t, v) :: st.votes from List.mem_cons_self (t, v) st.votes)]
      dsimp only
      rw [if_pos dup_msg_contains_constraint]
  · intro thr st t v w up msg hmem hnc
    rw [cast_vote, flush_vote.eq_def, if_neg hmem]
    simp [hnc]

lemma rate_limit_lua_hit (C : ℕ) (rate m now : ℚ) (hC : m ≤ (C : ℚ)) (h1 : 1 ≤ m) :
    rate_limit_lua C rate now (some ⟨m, now⟩) = (true, ⟨m - 1, now⟩) := by
  rw [rate_limit_lua]
  rw [show now - now = (0 : ℚ) by ring, zero_mul, add_zero,
    if_neg (not_lt.mpr hC), if_pos h1]

lemma rate_limit_lua_empty (C : ℕ) (rate m now : ℚ) (hC : m ≤ (C : ℚ)) (h1 : m < 1) :
    rate_limit_lua C rate now (some ⟨m, now⟩) = (false, ⟨m, now⟩) := by
  rw [rate_limit_lua]
  rw [show now - now = (0 : ℚ) by ring, zero_mul, add_zero,
    if_neg (not_lt.mpr hC), if_neg (not_le.mpr h1)]

lemma rate_limit_lua_fresh (C : ℕ) (rate now : ℚ) (hC : 1 ≤ C) :
    rate_limit_lua C rate now none = (true, ⟨(C : ℚ) - 1, now⟩) := by
  rw [rate_limit_lua]
  rw [show now - now = (0 : ℚ) by ring, zero_mul, add_zero, if_neg (lt_irrefl _),
    if_pos (by exact_mod_cast hC)]

lemma check_rate_limit_hit (s : RateSettings) (uid : ℕ) (btype : String)
    (redis : RedisStore) (now m : ℚ) (hb : redis (uid, btype) = some ⟨m, now⟩)
    (h1 : 1 ≤ m) (hC : m ≤ (max_tokens_for s btype : ℚ)) :
    check_rate_limit s uid redis btype now
      = (none, fun k => if k = (uid, btype) then some ⟨m - 1, now⟩ else redis k) := by
  rw [check_rate_limit]
  rw [hb, rate_limit_lua_hit _ _ _ _ hC h1]
  rfl

lemma check_rate_limit_empty (s : RateSettings) (uid : ℕ) (btype : String)
    (redis : RedisStore) (now m : ℚ) (hb : redis (uid, btype) = some ⟨m, now⟩)
    (h1 : m < 1) (hC : m ≤ (max_tokens_for s btype : ℚ)) :
    check_rate_limit s uid redis btype now
      = (some 60, fun k => if k = (uid, btype) then some ⟨m, now⟩ else redis k) := by
  rw [check_rate_limit]
  rw [hb, rate_limit_lua_empty _ _ _ _ hC h1]
  rfl

lemma check_rate_limit_fresh (s : RateSettings) (uid : ℕ) (btype : String)
    (redis : RedisStore) (now : ℚ) (hb : redis (uid, btype) = none)
    (hC : 1 ≤ max_tokens_for s btype) :
    check_rate_limit s uid redis btype now
      = (none, fun k => if k = (uid, btype) then
          some ⟨(max_tokens_for s btype : ℚ) - 1, now⟩ else redis k) := by
  rw [check_rate_limit]
  rw [hb, rate_limit_lua_fresh _ _ _ hC]
  rfl

lemma consume_requests_spec (s : RateSettings) (uid : ℕ) (btype : String) (now : ℚ) :
    ∀ (k : ℕ) (redis : RedisStore) (m : ℚ),
      redis (uid, btype) = some ⟨m, now⟩ → (k : ℚ) ≤ m →
      m ≤ (max_tokens_for s btype : ℚ) →
      (consume_requests s uid btype now k redis).1 = true
      ∧ (consume_requests s uid btype now k redis).2 (uid, btype)
          = some ⟨m - k, now⟩
      ∧ ∀ key, key ≠ (uid, btype) →
          (consume_requests s uid btype now k redis).2 key = redis key := by
  intro k
  induction k with
  | zero =>
      intro redis m hb _ _
      refine ⟨rfl, ?_, fun key _ => rfl⟩
      have hred : (consume_requests s uid btype now 0 redis).2 (uid, btype)
          = redis (uid, btype) := rfl
      rw [hred, hb]
      norm_num
  | succ k ih =>
      intro redis m hb hk hC
      have hk' : (k : ℚ) + 1 ≤ m := by
        push_cast at hk
        linarith
      have h1 : 1 ≤ m := by
        have : (0 : ℚ) ≤ (k : ℚ) := Nat.cast_nonneg k
        linarith
      have hstep := check_rate_limit_hit s uid btype redis now m hb h1 hC
      rw [consume_requests]
      dsimp only
      rw [hstep]
      dsimp only
      have hb1 : (fun kk => if kk = (uid, btype) then some (⟨m - 1, now⟩ : Bucket)
          else redis kk) (uid, btype) = some ⟨m - 1, now⟩ := by
        simp
      have hk1 : (k : ℚ) ≤ m - 1 := by linarith
      have hC1 : m - 1 ≤ (max_tokens_for s btype : ℚ) := by linarith
      obtain ⟨hall, hkey, hframe⟩ := ih
        (fun kk => if kk = (uid, btype) then some ⟨m - 1, now⟩ else redis kk)
        (m - 1) hb1 hk1 hC1
      refine ⟨?_, ?_, ?_⟩
      · rw [hall]
        rfl
      · rw [hkey]
        have harith : m - 1 - (k : ℚ) = m - ((k + 1 : ℕ) : ℚ) := by
          push_cast
          ring
        rw [harith]
      · intro key hne
        rw [hframe key hne]
        simp [hne]

/-- Witness for C2 at concrete inputs. -/
theorem cast_vote_duplicate_conflict_witness :
    cast_vote 2 ⟨[(1, 7)], ⟨TraceStatus.pending, 1, 82/100⟩⟩ 1 7 1 true none
        = CastVoteOutcome.conflict409 ⟨[(1, 7)], ⟨TraceStatus.pending, 1, 82/100⟩⟩
    ∧ (∃ st1 : VotesState,
        cast_vote 2 ⟨[], ⟨TraceStatus.pending, 1, 0⟩⟩ 1 7 (82/100) true none
            = CastVoteOutcome.created st1
        ∧ st1.trace = apply_vote_to_trace 2 ⟨TraceStatus.pending, 1, 0⟩ (82/100) true
        ∧ cast_vote 2 st1 1 7 (82/100) false none = CastVoteOutcome.conflict409 st1)
    ∧ cast_vote 2 ⟨[], ⟨TraceStatus.pending, 1, 0⟩⟩ 1 7 1 true (some "disk full")
        = CastVoteOutcome.raised "disk full" ⟨[], ⟨TraceStatus.pending, 1, 0⟩⟩ :=
  ⟨cast_vote_duplicate_conflict.1 2 _ 1 7 1 true none (by decide),
    cast_vote_duplicate_conflict.2.1 2 _ 1 7 (82/100) (82/100) true false (by decide),
    cast_vote_duplicate_conflict.2.2 2 _ 1 7 1 true "disk full" (by decide) (by decide)⟩

lemma consume_all_from_fresh (s : RateSettings) (uid : ℕ) (btype : String) (now : ℚ)
    (h1 : 1 ≤ max_tokens_for s btype) :
    (consume_requests s uid btype now (max_tokens_for s btype) (fun _ => none)).1 = true
    ∧ (consume_requests s uid btype now (max_tokens_for s btype)
        (fun _ => none)).2 (uid, btype) = some ⟨0, now⟩
    ∧ ∀ key, key ≠ (uid, btype) →
        (consume_requests s uid btype now (max_tokens_for s btype)
          (fun _ => none)).2 key = none := by
  obtain ⟨C', hC'⟩ := Nat.exists_eq_add_of_le h1
  have hC'' : max_tokens_for s btype = C' + 1 := by omega
  rw [hC'']
  rw [consume_requests]
  dsimp only
  rw [check_rate_limit_fresh s uid btype _ now rfl h1]
  dsimp only
  have hb1 : (fun kk => if kk = (uid, btype) then
      some (⟨(max_tokens_for s btype : ℚ) - 1, now⟩ : Bucket) else none) (uid, btype)
      = some ⟨(max_tokens_for s btype : ℚ) - 1, now⟩ := by
    simp
  have hk1 : (C' : ℚ) ≤ (max_tokens_for s btype : ℚ) - 1 := by
    rw [hC'']
    push_cast
    linarith
  have hC1 : (max_tokens_for s btype : ℚ) - 1 ≤ (max_tokens_for s btype : ℚ) := by
    linarith
  obtain ⟨hall, hkey, hframe⟩ := consume_requests_spec s uid btype now C'
    (fun kk => if kk = (uid, btype) then
      some ⟨(max_tokens_for s btype : ℚ) - 1, now⟩ else none)
    ((max_tokens_for s btype : ℚ) - 1) hb1 hk1 hC1
  refine ⟨?_, ?_, ?_⟩
  · rw [hall]
    rfl
  · rw [hkey]
    have harith : (max_tokens_for s btype : ℚ) - 1 - (C' : ℚ) = 0 := by
      rw [hC'']
      push_cast
      ring
    rw [harith]
  · intro key hne
    rw [hframe key hne]
    simp [hne]

/-- C5: starting from an absent (hence full) bucket of capacity `C`, any
`k ≤ C` consecutive immediate requests by one subject are all allowed; the
`(C+1)`-th is denied with the fixed 60-second retry hint; at that same moment
a different subject's request on its own bucket is allowed; and on every call
the script first refills the stored tokens by `elapsed × rate` capped at `C`,
a denial persisting exactly the refilled value. -/
theorem token_bucket_admission :
    (∀ (s : RateSettings) (uid : ℕ) (btype : String) (now : ℚ) (k : ℕ),
      1 ≤ max_tokens_for s btype → k ≤ max_tokens_for s btype →
      (consume_requests s uid btype now k (fun _ => none)).1 = true)
    ∧ (∀ (s : RateSettings) (uid : ℕ) (btype : String) (now : ℚ),
      1 ≤ max_tokens_for s btype →
      (check_rate_limit s uid
          (consume_requests s uid btype now (max_tokens_for s btype)
            (fun _ => none)).2 btype now).1 = some 60)
    ∧ (∀ (s : RateSettings) (uid uid' : ℕ) (btype : String) (now : ℚ),
      uid' ≠ uid → 1 ≤ max_tokens_for s btype →
      (check_rate_limit s uid'
          (consume_requests s uid btype now (max_tokens_for s btype)
            (fun _ => none)).2 btype now).1 = none)
    ∧ (∀ (C : ℕ) (rate now : ℚ) (b : Bucket),
      (rate_limit_lua C rate now (some b)).1 = false →
      (rate_limit_lua C rate now (some b)).2.tokens
        = if b.tokens + (now - b.last_refill) * rate > (C : ℚ) then (C : ℚ)
          else b.tokens + (now - b.last_refill) * rate) := by
  refine ⟨?_, ?_, ?_, ?_⟩
  · intro s uid btype now k h1 hk
    cases k with
    | zero => rfl
    | succ k' =>
        rw [consume_requests]
        dsimp only
        rw [check_rate_limit_fresh s uid btype _ now rfl h1]
        dsimp only
        have hb1 : (fun kk => if kk = (uid, btype) then
            some (⟨(max_tokens_for s btype : ℚ) - 1, now⟩ : Bucket) else none) (uid, btype)
            = some ⟨(max_tokens_for s btype : ℚ) - 1, now⟩ := by
          simp
        have hk1 : (k' : ℚ) ≤ (max_tokens_for s btype : ℚ) - 1 := by
          have hcast : ((k' + 1 : ℕ) : ℚ) ≤ (max_tokens_for s btype : ℚ) := by
            exact_mod_cast hk
          push_cast at hcast
          linarith
        have hC1 : (max_tokens_for s btype : ℚ) - 1 ≤ (max_tokens_for s btype : ℚ) := by
          linarith
        obtain ⟨hall, -, -⟩ := consume_requests_spec s uid btype now k'
          (fun kk => if kk = (uid, btype) then
            some ⟨(max_tokens_for s btype : ℚ) - 1, now⟩ else none)
          ((max_tokens_for s btype : ℚ) - 1) hb1 hk1 hC1
        rw [hall]
        rfl
  · intro s uid btype now h1
    obtain ⟨-, hkey, -⟩ := consume_all_from_fresh s uid btype now h1
    rw [check_rate_limit_empty s uid btype _ now 0 hkey (by norm_num) (by positivity)]
  · intro s uid uid' btype now hne h1
    obtain ⟨-, -, hframe⟩ := consume_all_from_fresh s uid btype now h1
    have hkey' : (consume_requests s uid btype now (max_tokens_for s btype)
        (fun _ => none)).2 (uid', btype) = none := by
      apply hframe
      intro hcontra
      exact hne (congrArg Prod.fst hcontra)
    rw [check_rate_limit_fresh s uid' btype _ now hkey' h1]
  · intro C rate now b hdeny
    rw [rate_limit_lua] at hdeny ⊢
    split_ifs at hdeny ⊢ with h1 h2
    all_goals rfl

/-- Witness for C5 at capacity 60 (the "read" class of the default settings). -/
theorem token_bucket_admission_witness :
    (consume_requests ⟨60, 20⟩ 1 "read" 0 60 (fun _ => none)).1 = true
    ∧ (check_rate_limit ⟨60, 20⟩ 1
        (consume_requests ⟨60, 20⟩ 1 "read" 0 (max_tokens_for ⟨60, 20⟩ "read")
          (fun _ => none)).2 "read" 0).1 = some 60
    ∧ (check_rate_limit ⟨60, 20⟩ 2
        (consume_requests ⟨60, 20⟩ 1 "read" 0 (max_tokens_for ⟨60, 20⟩ "read")
          (fun _ => none)).2 "read" 0).1 = none
    ∧ (rate_limit_lua 60 1 5 (some ⟨0, 5⟩)).2.tokens
        = if (0 : ℚ) + ((5 : ℚ) - 5) * 1 > (60 : ℚ) then (60 : ℚ)
          else (0 : ℚ) + ((5 : ℚ) - 5) * 1 :=
  ⟨token_bucket_admission.1 ⟨60, 20⟩ 1 "read" 0 60 (by decide) (by decide),
    token_bucket_admission.2.1 ⟨60, 20⟩ 1 "read" 0 (by decide),
    token_bucket_admission.2.2.1 ⟨60, 20⟩ 1 2 "read" 0 (by decide) (by decide),
    token_bucket_admission.2.2.2 60 1 5 ⟨0, 5⟩
      (by rw [rate_limit_lua_empty 60 1 0 5 (by norm_num) (by norm_num)])⟩

/-- Counterexample to C6 as stated: when two completed runs lie inside the
interval, the guard's `scalar_one_or_none` raises `MultipleResultsFound`
instead of returning a skipped indication. -/
theorem consolidation_guard_multiplicity_counterexample :
    (∃ r ∈ ([⟨"completed", some 9, []⟩, ⟨"completed", some 10, []⟩] :
        List ConsolidationRun),
      r.status = "completed" ∧ ∃ ts, r.completed_at = some ts ∧ (10 : ℚ) - 24 < ts)
    ∧ run_consolidation_cycle MaturityTier.seed zero_job zero_job zero_job zero_job
        zero_job zero_job zero_job
        [⟨"completed", some 9, []⟩, ⟨"completed", some 10, []⟩] 10 24 0
        ≠ Except.ok CycleOutcome.skipped := by
  constructor
  · exact ⟨⟨"completed", some 9, []⟩, by simp, rfl, 9, rfl, by norm_num⟩
  · have hguard : recent_completed
        [⟨"completed", some 9, []⟩, ⟨"completed", some 10, []⟩] ((10 : ℚ) - 24)
        = [⟨"completed", some 9, []⟩, ⟨"completed", some 10, []⟩] := by
      simp [recent_completed, List.filter,
        show ((10 : ℚ) - 24 < 9) by norm_num,
        show ((10 : ℚ) - 24 < 10) by norm_num]
    rw [run_consolidation_cycle, hguard]
    simp

/-- C6 (amended): a cycle is skipped — no job work, no new run record — when
exactly one completed run lies inside the interval; it proceeds and creates a
run record when none does; and a run enters the guard exactly when its status
is `"completed"` and its completion time is after the cutoff, so runs in
status `"partial"` or `"running"` never suppress a cycle. -/
theorem consolidation_idempotency_guard :
    (∀ (σ : Type) (tier : MaturityTier) (d t c p pr cv sy : Job σ)
        (runs : List ConsolidationRun) (now interval : ℚ) (st : σ)
        (r : ConsolidationRun),
      recent_completed runs (now - interval) = [r] →
      run_consolidation_cycle tier d t c p pr cv sy runs now interval st
        = Except.ok CycleOutcome.skipped)
    ∧ (∀ (σ : Type) (tier : MaturityTier) (d t c p pr cv sy : Job σ)
        (runs : List ConsolidationRun) (now interval : ℚ) (st : σ),
      recent_completed runs (now - interval) = [] →
      ∃ (nr : ConsolidationRun) (st1 : σ),
        run_consolidation_cycle tier d t c p pr cv sy runs now interval st
          = Except.ok (CycleOutcome.ran nr st1))
    ∧ (∀ (runs : List ConsolidationRun) (cutoff : ℚ) (r : ConsolidationRun),
      r ∈ recent_completed runs cutoff ↔
        (r ∈ runs ∧ r.status = "completed"
          ∧ ∃ ts, r.completed_at = some ts ∧ cutoff < ts)) := by
  refine ⟨?_, ?_, ?_⟩
  · intro σ tier d t c p pr cv sy runs now interval st r h
    rw [run_consolidation_cycle, h]
  · intro σ tier d t c p pr cv sy runs now interval st h
    rw [run_consolidation_cycle, h]
    exact ⟨_, _, rfl⟩
  · intro runs cutoff r
    rw [recent_completed, List.mem_filter]
    cases hc : r.completed_at with
    | none => simp [hc]
    | some ts =>
        simp only [hc, Bool.and_eq_true, decide_eq_true_eq, beq_iff_eq,
          Option.some.injEq]
        constructor
        · rintro ⟨hm, hlt, hs⟩
          exact ⟨hm, hs, ts, rfl, hlt⟩
        · rintro ⟨hm, hs, ts', hts', hlt⟩
          cases hts'
          exact ⟨hm, hlt, hs⟩

/-- Witness for the amended C6: one completed run inside the interval skips
the cycle; runs in status `"partial"` or `"running"` alone let it proceed. -/
theorem consolidation_idempotency_guard_witness :
    run_consolidation_cycle MaturityTier.seed zero_job zero_job zero_job
        zero_job zero_job zero_job zero_job
        [⟨"completed", some 9, []⟩, ⟨"running", none, []⟩, ⟨"partial", some 8, []⟩]
        10 24 0 = Except.ok CycleOutcome.skipped
    ∧ ∃ (nr : ConsolidationRun) (st1 : ℕ),
        run_consolidation_cycle MaturityTier.seed zero_job zero_job zero_job
          zero_job zero_job zero_job zero_job
          [⟨"partial", some 9, []⟩, ⟨"running", none, []⟩] 10 24 0
          = Except.ok (CycleOutcome.ran nr st1) :=
  ⟨consolidation_idempotency_guard.1 ℕ MaturityTier.seed zero_job zero_job zero_job
      zero_job zero_job zero_job zero_job _ 10 24 0 ⟨"completed", some 9, []⟩
      (by simp [recent_completed, List.filter,
        show ((10 : ℚ) - 24 < 9) by norm_num,
        show ((10 : ℚ) - 24 < 8) by norm_num]),
    consolidation_idempotency_guard.2.1 ℕ MaturityTier.seed zero_job zero_job
      zero_job zero_job zero_job zero_job zero_job _ 10 24 0
      (by simp [recent_completed, List.filter])⟩

/-- C7: an exception in one job is caught, recorded as `"error"` under that
job's name, and the remaining jobs run on the state the earlier jobs left
(with their stats preserved); the run record is finalized `"completed"`
exactly when the error list is empty, else `"partial"`; in the concrete
scenario decay succeeds with 5 rows, temperature raises, every later job
still runs, and the run is `"partial"` with decay's result in the stats. -/
theorem consolidation_job_fault_isolation :
    (∀ (σ : Type) (pre : List (String × Job σ)) (name : String) (job : Job σ)
        (post : List (String × Job σ)) (st : σ) (stats : List (String × StatVal))
        (errors : List String) (e : String),
      job (run_jobs pre st stats errors).1 = Except.error e →
      run_jobs (pre ++ (name, job) :: post) st stats errors
        = run_jobs post (run_jobs pre st stats errors).1
            (set_stat (run_jobs pre st stats errors).2.1 name (StatVal.str "error"))
            ((run_jobs pre st stats errors).2.2 ++ [name]))
    ∧ (∀ (σ : Type) (tier : MaturityTier) (d t c p pr cv sy : Job σ)
        (runs : List ConsolidationRun) (now interval : ℚ) (st : σ),
      recent_completed runs (now - interval) = [] →
      run_consolidation_cycle tier d t c p pr cv sy runs now interval st
        = Except.ok (CycleOutcome.ran
            ⟨if (run_jobs (cycle_jobs tier d t c p pr cv sy) st
                  [("maturity_tier", StatVal.str (tier_value tier))] []).2.2 = []
              then "completed" else "partial",
              some now,
              (run_jobs (cycle_jobs tier d t c p pr cv sy) st
                [("maturity_tier", StatVal.str (tier_value tier))] []).2.1⟩
            (run_jobs (cycle_jobs tier d t c p pr cv sy) st
              [("maturity_tier", StatVal.str (tier_value tier))] []).1))
    ∧ run_consolidation_cycle MaturityTier.seed decay_five boom_job tick_job
        tick_job tick_job tick_job tick_job [] 0 24 0
        = Except.ok (CycleOutcome.ran
            ⟨"partial", some 0,
              [("maturity_tier", StatVal.str "seed"),
               ("trust_downscaled", StatVal.num 5),
               ("temperature_computation", StatVal.str "error"),
               ("co_retrieval_links", StatVal.num 0),
               ("logs_pruned", StatVal.num 0),
               ("prospective_staled", StatVal.num 0)]⟩ 4)
    ∧ run_consolidation_cycle MaturityTier.seed tick_job tick_job tick_job
        tick_job tick_job tick_job tick_job [] 0 24 0
        = Except.ok (CycleOutcome.ran
            ⟨"completed", some 0,
              [("maturity_tier", StatVal.str "seed"),
               ("trust_downscaled", StatVal.num 0),
               ("temperature_computation", StatVal.num 0),
               ("co_retrieval_links", StatVal.num 0),
               ("logs_pruned", StatVal.num 0),
               ("prospective_staled", StatVal.num 0)]⟩ 5) := by
  refine ⟨?_, ?_, by rfl, by rfl⟩
  · intro σ pre name job post
    induction pre with
    | nil =>
        intro st stats errors e hfail
        simp only [run_jobs] at hfail
        simp only [List.nil_append, run_jobs, hfail]
    | cons hd tl ih =>
        obtain ⟨n0, j0⟩ := hd
        intro st stats errors e hfail
        simp only [run_jobs] at hfail
        simp only [List.cons_append, run_jobs]
        cases hj : j0 st with
        | ok pair =>
            obtain ⟨st1, res⟩ := pair
            rw [hj] at hfail
            exact ih st1 (record_result stats n0 res) errors e hfail
        | error msg =>
            rw [hj] at hfail
            exact ih st (set_stat stats n0 (StatVal.str "error"))
              (errors ++ [n0]) e hfail
  · intro σ tier d t c p pr cv sy runs now interval st h
    rw [run_consolidation_cycle, h]
    cases hres : (run_jobs (cycle_jobs tier d t c p pr cv sy) st
        [("maturity_tier", StatVal.str (tier_value tier))] []).2.2 with
    | nil => simp [hres]
    | cons a l => simp [hres]

/-- Witness for C7: the isolation equation at a concrete failing middle job,
and the finalization shape for a concrete guard-free cycle. -/
theorem consolidation_job_fault_isolation_witness :
    run_jobs ([("a", tick_job)] ++ ("b", boom_job) :: [("c", tick_job)]) 0 [] []
      = run_jobs [("c", tick_job)] (run_jobs [("a", tick_job)] (0 : ℕ) [] []).1
          (set_stat (run_jobs [("a", tick_job)] (0 : ℕ) [] []).2.1 "b"
            (StatVal.str "error"))
          ((run_jobs [("a", tick_job)] (0 : ℕ) [] []).2.2 ++ ["b"])
    ∧ run_consolidation_cycle MaturityTier.seed tick_job tick_job tick_job
        tick_job tick_job tick_job tick_job [] 0 24 0
        = Except.ok (CycleOutcome.ran
            ⟨if (run_jobs (cycle_jobs MaturityTier.seed tick_job tick_job tick_job
                  tick_job tick_job tick_job tick_job) 0
                  [("maturity_tier", StatVal.str (tier_value MaturityTier.seed))]
                  []).2.2 = []
              then "completed" else "partial",
              some 0,
              (run_jobs (cycle_jobs MaturityTier.seed tick_job tick_job tick_job
                tick_job tick_job tick_job tick_job) 0
                [("maturity_tier", StatVal.str (tier_value MaturityTier.seed))]
                []).2.1⟩
            (run_jobs (cycle_jobs MaturityTier.seed tick_job tick_job tick_job
              tick_job tick_job tick_job tick_job) 0
              [("maturity_tier", StatVal.str (tier_value MaturityTier.seed))]
              []).1) :=
  ⟨consolidation_job_fault_isolation.1 ℕ [("a", tick_job)] "b" boom_job
      [("c", tick_job)] 0 [] [] "boom" (by rfl),
    consolidation_job_fault_isolation.2.1 ℕ MaturityTier.seed tick_job tick_job
      tick_job tick_job tick_job tick_job tick_job [] 0 24 0 (by decide)⟩

/-- Counterexample to C8 as stated: at the GROWING tier — which is not the
mature tier — the cycle schedules and executes the synthesis job (the
collaborator-invocation counter moves from 0 to 1 and
`patterns_synthesized` is recorded). -/
theorem synthesis_tier_gate_counterexample :
    MaturityTier.growing ≠ MaturityTier.mature
    ∧ run_consolidation_cycle MaturityTier.growing zero_job zero_job zero_job
        zero_job zero_job zero_job count_synth [] 0 24 0
        = Except.ok (CycleOutcome.ran
            ⟨"completed", some 0,
              [("maturity_tier", StatVal.str "growing"),
               ("trust_downscaled", StatVal.num 0),
               ("temperature_computation", StatVal.num 0),
               ("co_retrieval_links", StatVal.num 0),
               ("logs_pruned", StatVal.num 0),
               ("prospective_staled", StatVal.num 0),
               ("convergence_detected", StatVal.num 0),
               ("patterns_synthesized", StatVal.num 1)]⟩ 1) :=
  ⟨by decide, by rfl⟩

/-- C8 (amended): the synthesis-orchestration job is scheduled exactly when
the tier is GROWING or MATURE; at the SEED tier the cycle's outcome is
independent of the convergence and synthesis job bodies — they are never
invoked. -/
theorem synthesis_tier_gate :
    (∀ (σ : Type) (tier : MaturityTier) (d t c p pr cv sy : Job σ),
      ("patterns_synthesized" ∈
          (cycle_jobs tier d t c p pr cv sy).map Prod.fst) ↔
        (tier = MaturityTier.growing ∨ tier = MaturityTier.mature))
    ∧ (∀ (σ : Type) (d t c p pr cv sy cv' sy' : Job σ)
        (runs : List ConsolidationRun) (now interval : ℚ) (st : σ),
      run_consolidation_cycle MaturityTier.seed d t c p pr cv sy runs now interval st
        = run_consolidation_cycle MaturityTier.seed d t c p pr cv' sy' runs
            now interval st) := by
  constructor
  · intro σ tier d t c p pr cv sy
    cases tier <;> simp [cycle_jobs]
  · intro σ d t c p pr cv sy cv' sy' runs now interval st
    rfl

lemma le_foldl_max_init (l : List ℚ) : ∀ x : ℚ, x ≤ l.foldl max x := by
  induction l with
  | nil => intro x; exact le_refl x
  | cons a l ih =>
      intro x
      exact le_trans (le_max_left x a) (ih (max x a))

lemma le_foldl_max (l : List ℚ) : ∀ (x y : ℚ), y ∈ x :: l → y ≤ l.foldl max x := by
  induction l with
  | nil =>
      intro x y hy
      rw [List.mem_singleton] at hy
      exact le_of_eq hy
  | cons a l ih =>
      intro x y hy
      rcases List.mem_cons.mp hy with h | h
      · subst h
        exact le_trans (le_max_left y a) (le_foldl_max_init l (max y a))
      · rcases List.mem_cons.mp h with h' | h'
        · subst h'
          exact le_trans (le_max_right x y) (le_foldl_max_init l (max x y))
        · exact ih (max x a) y (List.mem_cons_of_mem _ h')

lemma foldl_max_mem (l : List ℚ) : ∀ x : ℚ, l.foldl max x ∈ x :: l := by
  induction l with
  | nil => intro x; exact List.mem_singleton.mpr rfl
  | cons a l ih =>
      intro x
      show List.foldl max (max x a) l ∈ x :: a :: l
      have h := ih (max x a)
      rcases List.mem_cons.mp h with h' | h'
      · rw [h']
        rcases max_choice x a with hm | hm
        · rw [hm]
          exact List.mem_cons_self _ _
        · rw [hm]
          exact List.mem_cons_of_mem _ (List.mem_cons_self a l)
      · exact List.mem_cons_of_mem _ (List.mem_cons_of_mem _ h')

/-- C9: the computed vote weight is never below `BASE_WEIGHT`; with tags and
matching domain rows it is `max BASE_WEIGHT (max of matching wilson scores)`
(characterised as dominating every matching score and being either the floor
or one of them); with tags but no match it is exactly `BASE_WEIGHT`; with no
tags it is `max BASE_WEIGHT (aggregate reputation score)`. -/
theorem vote_weight_floor_and_selection :
    (∀ (rep : Option ℚ) (rows : List (String × ℚ)) (tags : List String),
      BASE_WEIGHT ≤ get_vote_weight_for_trace rep rows tags)
    ∧ (∀ (rep : Option ℚ) (rows : List (String × ℚ)) (tags : List String),
      tags ≠ [] →
      ((rows.filter (fun p => tags.contains p.1)).map Prod.snd = [] →
        get_vote_weight_for_trace rep rows tags = BASE_WEIGHT)
      ∧ (∀ sc, sc ∈ (rows.filter (fun p => tags.contains p.1)).map Prod.snd →
          sc ≤ get_vote_weight_for_trace rep rows tags)
      ∧ ((rows.filter (fun p => tags.contains p.1)).map Prod.snd ≠ [] →
        get_vote_weight_for_trace rep rows tags = BASE_WEIGHT
        ∨ get_vote_weight_for_trace rep rows tags
            ∈ (rows.filter (fun p => tags.contains p.1)).map Prod.snd))
    ∧ (∀ (s : ℚ) (rows : List (String × ℚ)),
      get_vote_weight_for_trace (some s) rows [] = max BASE_WEIGHT s) := by
  refine ⟨?_, ?_, ?_⟩
  · intro rep rows tags
    rw [get_vote_weight_for_trace.eq_def]
    split_ifs with htag
    · exact le_max_left _ _
    · cases hds : (rows.filter (fun p => tags.contains p.1)).map Prod.snd with
      | nil => exact le_refl _
      | cons x xs => exact le_max_left _ _
  · intro rep rows tags htags
    have htag : ¬ tags.isEmpty = true := by
      cases tags with
      | nil => exact absurd rfl htags
      | cons a l => simp
    refine ⟨?_, ?_, ?_⟩
    · intro hds
      rw [get_vote_weight_for_trace.eq_def, if_neg htag, hds]
    · intro sc hsc
      rw [get_vote_weight_for_trace.eq_def, if_neg htag]
      cases hds : (rows.filter (fun p => tags.contains p.1)).map Prod.snd with
      | nil =>
          rw [hds] at hsc
          exact absurd hsc (List.not_mem_nil sc)
      | cons x xs =>
          rw [hds] at hsc
          exact le_trans (le_foldl_max xs x sc hsc) (le_max_right _ _)
    · intro hne
      rw [get_vote_weight_for_trace.eq_def, if_neg htag]
      cases hds : (rows.filter (fun p => tags.contains p.1)).map Prod.snd with
      | nil => exact absurd hds hne
      | cons x xs =>
          show max BASE_WEIGHT (xs.foldl max x) = BASE_WEIGHT
            ∨ max BASE_WEIGHT (xs.foldl max x) ∈ x :: xs
          rcases max_choice BASE_WEIGHT (xs.foldl max x) with hm | hm
          · exact Or.inl hm
          · rw [hm]
            exact Or.inr (foldl_max_mem xs x)
  · intro s rows
    by_cases hs : s = 0
    · subst hs
      rw [get_vote_weight_for_trace.eq_def]
      simp only [List.isEmpty_nil, if_true, if_pos rfl]
      rw [max_self, max_eq_left (by norm_num [BASE_WEIGHT])]
    · rw [get_vote_weight_for_trace.eq_def]
      simp only [List.isEmpty_nil, if_true, if_neg hs]

/-- Witness for C9 at concrete inputs. -/
theorem vote_weight_floor_and_selection_witness :
    ((get_vote_weight_for_trace none [("python", 2)] ["go"] = BASE_WEIGHT)
      ∧ ((2 : ℚ) ∈ ([("python", (2 : ℚ))].filter
            (fun p => ["python"].contains p.1)).map Prod.snd →
          (2 : ℚ) ≤ get_vote_weight_for_trace none [("python", 2)] ["python"]))
    ∧ BASE_WEIGHT ≤ get_vote_weight_for_trace none [] [] :=
  ⟨⟨(vote_weight_floor_and_selection.2.1 none [("python", 2)] ["go"]
        (by decide)).1 (by decide),
      fun h => (vote_weight_floor_and_selection.2.1 none [("python", 2)] ["python"]
        (by decide)).2.1 2 h⟩,
    vote_weight_floor_and_selection.1 none [] []⟩

lemma embed_loop_skip (svc : ℕ → EmbedOutcome) :
    ∀ (l : List EmbTrace) (staged : List (ℕ × List ℚ × String × String))
      (processed : ℕ),
      (∃ tr ∈ l, svc tr.id = EmbedOutcome.skipped) →
      embed_loop svc l staged processed = none := by
  intro l
  induction l with
  | nil =>
      intro staged processed hex
      obtain ⟨tr, htr, -⟩ := hex
      exact absurd htr (List.not_mem_nil tr)
  | cons t0 rest ih =>
      intro staged processed hex
      rw [embed_loop]
      cases h : svc t0.id with
      | skipped => rfl
      | failed msg =>
          obtain ⟨tr, htr, hsk⟩ := hex
          rcases List.mem_cons.mp htr with heq | hmem
          · subst heq
            rw [h] at hsk
            exact absurd hsk (by simp)
          · exact ih staged processed ⟨tr, hmem, hsk⟩
      | success v mid mver =>
          obtain ⟨tr, htr, hsk⟩ := hex
          rcases List.mem_cons.mp htr with heq | hmem
          · subst heq
            rw [h] at hsk
            exact absurd hsk (by simp)
          · exact ih (staged ++ [(t0.id, v, mid, mver)]) (processed + 1)
              ⟨tr, hmem, hsk⟩

/-- C10: if the configuration-absence signal is raised for any item of the
claimed batch, `process_batch` returns 0 and commits nothing — the database,
including traces whose embeddings were computed earlier in the same batch, is
unchanged. -/
theorem embedding_batch_abort_atomic :
    ∀ (svc : ℕ → EmbedOutcome) (db : List EmbTrace),
      (∃ tr ∈ claim_batch db, svc tr.id = EmbedOutcome.skipped) →
      process_batch svc db = (0, db) := by
  intro svc db hex
  cases hcl : claim_batch db with
  | nil =>
      rw [hcl] at hex
      obtain ⟨tr, htr, -⟩ := hex
      exact absurd htr (List.not_mem_nil tr)
  | cons t0 ts =>
      rw [hcl] at hex
      rw [process_batch, hcl]
      rw [if_neg (by simp)]
      rw [embed_loop_skip svc (t0 :: ts) [] 0 hex]

/-- Witness for C10: a two-trace batch whose second item raises the
configuration-absence signal after the first was embedded. -/
theorem embedding_batch_abort_atomic_witness :
    process_batch
      (fun n => if n = 2 then EmbedOutcome.skipped
        else EmbedOutcome.success [1] "text-embedding-3-small" "v1")
      [⟨1, none, none, none⟩, ⟨2, none, none, none⟩]
      = (0, [⟨1, none, none, none⟩, ⟨2, none, none, none⟩]) :=
  embedding_batch_abort_atomic
    (fun n => if n = 2 then EmbedOutcome.skipped
      else EmbedOutcome.success [1] "text-embedding-3-small" "v1")
    [⟨1, none, none, none⟩, ⟨2, none, none, none⟩]
    (by decide)
